import Mathlib

/-!
Shallow embedding of the scheduling and posting logic of
src/main_gsheet.py, with theorems checking the specification claims.

Conventions of the embedding:
- Python strings are Lean String; truthiness of a string is non-emptiness.
- The sheet row is a record of the ten required columns (rows_with_index
  defaults missing cells to the empty string, and ensure_header guarantees
  the ten names are present, so every row dict has all ten keys).
- Instants are integer seconds in the fixed timezone Asia/Tokyo, which has
  no daylight-saving transitions, so local-time arithmetic of the source is
  plain integer arithmetic on such seconds.  We work at second granularity.
- random.randint(0, n) is modelled by a parameter offs with the hypothesis
  0 <= offs <= n.
-/

namespace ThreadsAutoPost

/-- Characters removed by str.strip() with no argument (the ASCII whitespace
Python strips; the source only applies strip to statuses, texts and urls). -/
def isPySpace (c : Char) : Bool :=
  c == ' ' || c == '\t' || c == '\n' || c == '\r' || c == '\x0b' || c == '\x0c'

/-- Python str.strip(): drop leading and trailing whitespace. -/
def pystrip (s : String) : String :=
  String.mk (((s.data.dropWhile isPySpace).reverse.dropWhile isPySpace).reverse)

/-- Python str.lower() (ASCII case folding suffices for the source, which only
compares against the all-lowercase literal "posted"). -/
def pylower (s : String) : String :=
  String.mk (s.data.map Char.toLower)

/-- Python truthiness of a string: non-empty. -/
def truthy (s : String) : Bool :=
  !s.isEmpty

/-- Python s[:n]: the first n characters of s. -/
def pyslice (s : String) (n : Nat) : String :=
  String.mk (s.data.take n)

/-- NEED_COLS of main_gsheet.py line 12. -/
def NEED_COLS : List String :=
  ["text", "image_url", "alt_text", "link_attachment", "reply_control",
   "topic_tag", "location_id", "status", "posted_at", "error"]

/-- One data row: the dict built by rows_with_index, restricted to the ten
required columns (after ensure_header the header contains all of them, and
missing cells default to the empty string). -/
structure Row where
  text : String
  image_url : String
  alt_text : String
  link_attachment : String
  reply_control : String
  topic_tag : String
  location_id : String
  status : String
  posted_at : String
  error : String
deriving DecidableEq, Repr

/-- The condition of first_unposted, line 107:
status.strip().lower() != "posted" and (text or image_url). -/
def eligible (r : Row) : Bool :=
  (pylower (pystrip r.status) != "posted") && (truthy r.text || truthy r.image_url)

/-- first_unposted, lines 105-109: first pair (index, row) in list order whose
row is eligible. -/
def first_unposted : List (Nat × Row) → Option (Nat × Row)
  | [] => none
  | (i, r) :: rest => if eligible r then some (i, r) else first_unposted rest

/-- ensure_header, lines 45-51 (the non-empty-sheet branch): append each
required column missing from the header, in NEED_COLS order. -/
def ensure_header (header : List String) : List String :=
  NEED_COLS.foldl (fun h col => if col ∈ h then h else h ++ [col]) header

/-! ## Post Submitter (post_one, lines 76-96) -/

/-- A JSON value placed in a payload dict (the source only uses strings and
the boolean True). -/
inductive JVal where
  | s (v : String)
  | b (v : Bool)
deriving DecidableEq, Repr

/-- A payload is the dict built by post_one: an association list in insertion
order (Python dicts preserve insertion order). -/
abbrev Payload := List (String × JVal)

/-- Lookup of a payload key. -/
def payloadGet (p : Payload) (k : String) : Option JVal :=
  match p.find? (fun kv => kv.1 == k) with
  | some kv => some kv.2
  | none => none

/-- The image-post payload of lines 80-84. -/
def imagePayload (row : Row) : Payload :=
  [("media_type", JVal.s "IMAGE"),
   ("image_url", JVal.s (pystrip row.image_url)),
   ("text", JVal.s (pystrip row.text))]
  ++ (if truthy row.alt_text then [("alt_text", JVal.s row.alt_text)] else [])
  ++ (if truthy row.reply_control then [("reply_control", JVal.s row.reply_control)] else [])
  ++ (if truthy row.topic_tag then [("topic_tag", JVal.s row.topic_tag)] else [])
  ++ (if truthy row.location_id then [("location_id", JVal.s row.location_id)] else [])

/-- The text-post payload of lines 90-94.  Note the source includes
link_attachment, reply_control, topic_tag and location_id here, but not
alt_text. -/
def textPayload (row : Row) : Payload :=
  [("media_type", JVal.s "TEXT"),
   ("text", JVal.s (pystrip row.text)),
   ("auto_publish_text", JVal.b true)]
  ++ (if truthy row.link_attachment then [("link_attachment", JVal.s row.link_attachment)] else [])
  ++ (if truthy row.reply_control then [("reply_control", JVal.s row.reply_control)] else [])
  ++ (if truthy row.topic_tag then [("topic_tag", JVal.s row.topic_tag)] else [])
  ++ (if truthy row.location_id then [("location_id", JVal.s row.location_id)] else [])

/-- One remote call issued by post_one. -/
inductive ApiCall where
  | createContainer (payload : Payload)
  | publishContainer (creation_id : String)
deriving DecidableEq, Repr

/-- The sequence of remote calls post_one issues for a row (lines 76-96);
cid is the container id the create-container response carries, which the
image branch passes to publish_container. -/
def post_one_calls (row : Row) (cid : String) : List ApiCall :=
  if truthy (pystrip row.image_url) then
    [ApiCall.createContainer (imagePayload row), ApiCall.publishContainer cid]
  else
    [ApiCall.createContainer (textPayload row)]

/-! ## Result bookkeeping (update_result, lines 98-103) -/

/-- Left-pad a decimal rendering with zeros to width w. -/
def padZ (w : Nat) (n : Nat) : String :=
  String.mk (List.replicate (w - (toString n).length) '0') ++ toString n

/-- time.strftime with format "%Y-%m-%d %H:%M:%S" (line 100) on a broken-down
local time. -/
def strftime_ts (y mo d h mi s : Nat) : String :=
  padZ 4 y ++ "-" ++ padZ 2 mo ++ "-" ++ padZ 2 d ++ " "
    ++ padZ 2 h ++ ":" ++ padZ 2 mi ++ ":" ++ padZ 2 s

/-- The three cells update_result writes for a row. -/
structure CellWrites where
  status : String
  posted_at : String
  error : String
deriving DecidableEq, Repr

/-- update_result, lines 98-103: ts is the strftime timestamp of line 100. -/
def update_result (ts status err : String) : CellWrites :=
  ⟨status,
   if status == "posted" then ts else "",
   if status == "failed" then pyslice err 3000 else ""⟩

/-! ## Remote calls with retry (create_container / publish_container,
lines 62-74, decorated with tenacity retry stop_after_attempt(3),
reraise=True) -/

/-- An HTTP response: status code and body text. -/
structure HttpResp where
  status : Nat
  text : String
deriving DecidableEq, Repr

/-- One attempt of the body of create_container or publish_container
(lines 65-67 and 72-74): raise "HTTP {status}: {text}" when status >= 400,
otherwise return the response body (modelling resp.json() by the body). -/
def attemptOnce (resp : HttpResp) : Except String String :=
  if resp.status ≥ 400 then
    Except.error ("HTTP " ++ toString resp.status ++ ": " ++ resp.text)
  else
    Except.ok resp.text

/-- The tenacity policy stop_after_attempt(3) with reraise=True: attempt the
call, on an exception retry, stop after the third attempt and re-raise its
exception unchanged.  resps k is the response the k-th attempt receives. -/
def retry3 (resps : Nat → HttpResp) : Except String String :=
  match attemptOnce (resps 0) with
  | Except.ok v => Except.ok v
  | Except.error _ =>
    match attemptOnce (resps 1) with
    | Except.ok v => Except.ok v
    | Except.error _ => attemptOnce (resps 2)

/-- Number of attempts retry3 performs before returning. -/
def retry3_attempts (resps : Nat → HttpResp) : Nat :=
  match attemptOnce (resps 0) with
  | Except.ok _ => 1
  | Except.error _ =>
    match attemptOnce (resps 1) with
    | Except.ok _ => 2
    | Except.error _ => 3

/-- The failure path of post_next_unposted (lines 123-126): the caught
exception text err is written through update_result with status "failed". -/
def failed_writes (ts err : String) : CellWrites :=
  update_result ts "failed" err

/-! ## Time utilities (lines 165-224)

Instants are integer seconds of local time in the fixed zone Asia/Tokyo
(constant UTC offset, no daylight saving), so datetime arithmetic of the
source is integer arithmetic here.  dayOf floors to the local calendar day,
matching datetime.date() of an aware datetime in that zone. -/

/-- The calendar day an instant falls on (ref.date()). -/
def dayOf (t : Int) : Int := Int.fdiv t 86400

/-- datetime.combine(day, time(h, m), TZ) as seconds. -/
def combine (day : Int) (h m : Nat) : Int :=
  day * 86400 + (h : Int) * 3600 + (m : Int) * 60

/-- Model of _parse_hhmm_ext, lines 171-175: divmod(h, 24) interpreting hours past 24
as extra days; the minute field is returned unchanged. -/
def parse_hhmm_ext (h m : Nat) : Nat × Nat × Nat :=
  (h / 24, h % 24, m)

/-! ### Model of _next_at_with_jitter, lines 213-224.

The time string has been parsed to (h, m); j is jitter_min; ref the
reference instant; offs models random.randint(0, secs). -/

/-- Value base of lines 216-220: todays instant at the given time (plus the extra
days from hours >= 24), rolled one day forward when ref is past end. -/
def jitterBase (h m j : Nat) (ref : Int) : Int :=
  let ext := parse_hhmm_ext h m
  let base0 := combine (dayOf ref) ext.2.1 ext.2.2 + (ext.1 : Int) * 86400
  if ref > base0 + (j : Int) * 60 then base0 + 86400 else base0

/-- Value start of line 221: the window start clamped to at least 5 seconds past
ref. -/
def jitterStart (h m j : Nat) (ref : Int) : Int :=
  max (jitterBase h m j ref - (j : Int) * 60) (ref + 5)

/-- secs of line 222: the randomization span, at least 60. -/
def jitterSecs (h m j : Nat) (ref : Int) : Int :=
  max 60 (jitterBase h m j ref + (j : Int) * 60 - jitterStart h m j ref)

/-- The instant _next_at_with_jitter returns, offs being the randint draw
(theorems hypothesize 0 <= offs <= jitterSecs). -/
def next_at_with_jitter (h m j : Nat) (ref : Int) (offs : Nat) : Int :=
  jitterStart h m j ref + (offs : Int)

/-! ### Model of _next_random_in_window, lines 177-194.

The window string "HH:MM-HH:MM" has been parsed to (sh, sm) and (eh, em) by
_parse_hhmm (line 180); now is datetime.now(TZ). -/

/-- The state (start_dt, end_dt, win_start) after the two conditional
day-shifts of lines 185-190. -/
def windowState (sh sm eh em : Nat) (now : Int) : Int × Int × Int :=
  let today := dayOf now
  let start0 := combine today sh sm
  let end0 := combine today eh em
  let shift : Int := if end0 ≤ now ∨ end0 ≤ start0 then 86400 else 0
  let start1 := start0 + shift
  let end1 := end0 + shift
  let win := max start1 (now + 5)
  if end1 - win ≤ 5 then (start1 + 86400, end1 + 86400, start1 + 86400)
  else (start1, end1, win)

/-- Value rsec of line 192 (int of the remaining span; the randint upper bound of
line 193 is max 0 rsec). -/
def windowRsec (sh sm eh em : Nat) (now : Int) : Int :=
  (windowState sh sm eh em now).2.1 - (windowState sh sm eh em now).2.2

/-- The instant _next_random_in_window returns, offs modelling
random.randint(0, max(0, rsec)); theorems hypothesize
0 <= offs <= max 0 rsec. -/
def next_random_in_window (sh sm eh em : Nat) (now : Int) (offs : Nat) : Int :=
  (windowState sh sm eh em now).2.2 + (offs : Int)

/-! ### run_daily_window, lines 196-211.

Each iteration of the outer loop recomputes nxt by calling
_next_random_in_window at the top (line 200), sleeps until it, and fires.
The recomputation of lines 210-211 (next-day value) is overwritten by
line 200 on the next iteration, so the fire instant of an iteration whose
loop-top time is now is next_random_in_window applied at now. -/

/-- The fire instant of the run_daily_window iteration whose loop top runs at
instant now (line 200 fixes nxt; the inner loop of lines 202-205 then waits
until it). -/
def run_daily_window_fire (sh sm eh em : Nat) (now : Int) (offs : Nat) : Int :=
  next_random_in_window sh sm eh em now offs

/-- The value lines 210-211 compute after firing at instant t (and which
line 200 then discards): a fresh draw shifted one day forward. -/
def run_daily_window_dead_next (sh sm eh em : Nat) (t : Int) (offs : Nat) : Int :=
  next_random_in_window sh sm eh em t offs + 86400

/-! ### run_daily_multi_at, lines 242-262.

schedule_map is a dict from time label to pending instant; Python dicts
iterate in insertion order and assigning to an existing key keeps its
position, so an association list is a faithful model.  min(items, key=kv.1)
scans left to right and keeps the earlier entry on ties. -/

/-- Model of min(schedule_map.items(), key=lambda kv: kv[1]) at line 252: first entry
with the smallest instant. -/
def selectMin : List (String × Int) → Option (String × Int)
  | [] => none
  | kv :: rest =>
    match selectMin rest with
    | none => some kv
    | some best => if best.2 < kv.2 then some best else some kv

/-- schedule_map[label] = v (line 262) on an association list with unique
keys. -/
def updateSchedule (m : List (String × Int)) (label : String) (v : Int) :
    List (String × Int) :=
  m.map (fun kv => if kv.1 == label then (kv.1, v) else kv)

/-- Dict lookup schedule_map[k] on the association-list model. -/
def mapGet (m : List (String × Int)) (k : String) : Option Int :=
  match m.find? (fun kv => kv.1 == k) with
  | some kv => some kv.2
  | none => none

/-- One iteration of the run_daily_multi_at loop acting on schedule_map:
select the nearest entry (line 252), fire, and recompute only that label
(line 262) with ref = fired instant + 1 day.  parseHM models
_parse_hhmm_ext applied to the label string inside _next_at_with_jitter;
j is jitter_min and offs the randint draw of the recomputation. -/
def run_daily_multi_at_step (parseHM : String → Nat × Nat) (j : Nat) (offs : Nat)
    (m : List (String × Int)) : List (String × Int) :=
  match selectMin m with
  | none => m
  | some (label, v) =>
    updateSchedule m label
      (next_at_with_jitter (parseHM label).1 (parseHM label).2 j (v + 86400) offs)

/-! ## Helper lemmas -/

/-- The fold of ensure_header only appends to the header it is given. -/
theorem foldl_append_missing (cols : List String) (h : List String) :
    ∃ tail, cols.foldl (fun h col => if col ∈ h then h else h ++ [col]) h
      = h ++ tail := by
  induction cols generalizing h with
  | nil => exact ⟨[], by simp⟩
  | cons c cs ih =>
    simp only [List.foldl_cons]
    by_cases hc : c ∈ h
    · simpa [hc] using ih h
    · obtain ⟨t, ht⟩ := ih (h ++ [c])
      exact ⟨[c] ++ t, by simp [hc, ht]⟩

/-- Elements of the initial header survive the ensure_header fold. -/
theorem foldl_append_missing_mem (cols : List String) (h : List String)
    (a : String) (ha : a ∈ h) :
    a ∈ cols.foldl (fun h col => if col ∈ h then h else h ++ [col]) h := by
  obtain ⟨t, ht⟩ := foldl_append_missing cols h
  rw [ht]
  exact List.mem_append_left _ ha

/-- Every required column is present after the ensure_header fold. -/
theorem foldl_append_missing_covers (cols : List String) (h : List String)
    (c : String) (hc : c ∈ cols) :
    c ∈ cols.foldl (fun h col => if col ∈ h then h else h ++ [col]) h := by
  induction cols generalizing h with
  | nil => cases hc
  | cons d ds ih =>
    simp only [List.foldl_cons]
    rcases List.mem_cons.mp hc with rfl | hmem
    · apply foldl_append_missing_mem
      by_cases hd : c ∈ h
      · simp [hd]
      · simp [hd]
    · exact ih _ hmem

/-- When every required column is already present, the fold is the
identity. -/
theorem foldl_append_missing_id (cols : List String) (h : List String)
    (hall : ∀ c ∈ cols, c ∈ h) :
    cols.foldl (fun h col => if col ∈ h then h else h ++ [col]) h = h := by
  induction cols with
  | nil => rfl
  | cons d ds ih =>
    simp only [List.foldl_cons, hall d (by simp), if_true]
    exact ih fun c hc => hall c (by simp [hc])

/-- A Bool-to-Prop bridge for string emptiness. -/
theorem isEmpty_false_iff (s : String) : s.isEmpty = false ↔ s ≠ "" := by
  rw [← Bool.not_eq_true, not_iff_not, String.isEmpty_iff]

/-- The eligibility test of line 107, spelled out. -/
theorem eligible_iff (r : Row) :
    eligible r = true ↔
      pylower (pystrip r.status) ≠ "posted" ∧ (r.text ≠ "" ∨ r.image_url ≠ "") := by
  simp [eligible, truthy, isEmpty_false_iff]

/-- A row returned by first_unposted is in the list and eligible. -/
theorem first_unposted_some (rows : List (Nat × Row)) (i : Nat) (r : Row)
    (h : first_unposted rows = some (i, r)) :
    (i, r) ∈ rows ∧ eligible r = true := by
  induction rows with
  | nil => cases h
  | cons p rest ih =>
    obtain ⟨j, s⟩ := p
    cases he : eligible s with
    | true =>
      simp only [first_unposted, he, if_true, Option.some.injEq] at h
      injection h with h1 h2
      subst h1; subst h2
      exact ⟨List.mem_cons_self _ _, he⟩
    | false =>
      simp only [first_unposted, he, Bool.false_eq_true, if_false] at h
      obtain ⟨hm, he2⟩ := ih h
      exact ⟨List.mem_cons_of_mem _ hm, he2⟩

/-- With strictly increasing indices, first_unposted returns the least index
among eligible rows. -/
theorem first_unposted_min (rows : List (Nat × Row)) (i : Nat) (r : Row)
    (hsort : rows.Pairwise (fun a b => a.1 < b.1))
    (h : first_unposted rows = some (i, r)) :
    ∀ p ∈ rows, eligible p.2 = true → i ≤ p.1 := by
  induction rows with
  | nil => cases h
  | cons q rest ih =>
    obtain ⟨j, s⟩ := q
    cases he : eligible s with
    | true =>
      simp only [first_unposted, he, if_true, Option.some.injEq] at h
      injection h with h1 h2
      subst h1; subst h2
      intro p hp hep
      rcases List.mem_cons.mp hp with rfl | hmem
      · exact le_refl _
      · exact le_of_lt ((List.pairwise_cons.mp hsort).1 p hmem)
    | false =>
      simp only [first_unposted, he, Bool.false_eq_true, if_false] at h
      intro p hp hep
      rcases List.mem_cons.mp hp with rfl | hmem
      · rw [he] at hep; cases hep
      · exact ih (List.pairwise_cons.mp hsort).2 h p hmem hep

/-- first_unposted returns none exactly when no row is eligible. -/
theorem first_unposted_none_iff (rows : List (Nat × Row)) :
    first_unposted rows = none ↔ ∀ p ∈ rows, eligible p.2 = false := by
  induction rows with
  | nil => simp [first_unposted]
  | cons q rest ih =>
    obtain ⟨j, s⟩ := q
    cases he : eligible s with
    | true =>
      have hfu : first_unposted ((j, s) :: rest) = some (j, s) := by
        simp [first_unposted, he]
      rw [hfu]
      constructor
      · intro h; cases h
      · intro hall
        have hs := hall (j, s) (List.mem_cons_self _ _)
        rw [he] at hs; cases hs
    | false =>
      simp only [first_unposted, he, Bool.false_eq_true, if_false, ih]
      constructor
      · intro hall p hp
        rcases List.mem_cons.mp hp with rfl | hmem
        · exact he
        · exact hall p hmem
      · intro hall p hp
        exact hall p (List.mem_cons_of_mem _ hp)

/-! ## Claim theorems -/

/-- C1: for every list of rows (with the strictly increasing sheet indices
rows_with_index produces), first_unposted never returns a row whose trimmed,
case-insensitive status is "posted", never returns a row whose text and
image_url are both empty, returns the eligible row of least index when one
exists, and returns none exactly when no eligible row exists. -/
theorem first_unposted_correct (rows : List (Nat × Row))
    (hsort : rows.Pairwise (fun a b => a.1 < b.1)) :
    (∀ i r, first_unposted rows = some (i, r) →
      (i, r) ∈ rows ∧
      pylower (pystrip r.status) ≠ "posted" ∧
      ¬(r.text = "" ∧ r.image_url = "") ∧
      (∀ p ∈ rows, eligible p.2 = true → i ≤ p.1)) ∧
    (first_unposted rows = none ↔ ∀ p ∈ rows, eligible p.2 = false) := by
  refine ⟨fun i r h => ?_, first_unposted_none_iff rows⟩
  obtain ⟨hm, he⟩ := first_unposted_some rows i r h
  obtain ⟨hst, hne⟩ := (eligible_iff r).mp he
  exact ⟨hm, hst, by tauto, first_unposted_min rows i r hsort h⟩

/-- Witness for C1 on a concrete sheet: a posted row, a blank row and an
eligible row. -/
theorem first_unposted_correct_witness :
    List.Pairwise (fun (a : Nat × Row) b => a.1 < b.1)
      [(2, ⟨"a", "", "", "", "", "", "", "Posted ", "", ""⟩),
       (3, ⟨"", "", "", "", "", "", "", "", "", ""⟩),
       (4, ⟨"hello", "", "", "", "", "", "", "", "", ""⟩)] ∧
    (first_unposted
      [(2, ⟨"a", "", "", "", "", "", "", "Posted ", "", ""⟩),
       (3, ⟨"", "", "", "", "", "", "", "", "", ""⟩),
       (4, ⟨"hello", "", "", "", "", "", "", "", "", ""⟩)] = none ↔
     ∀ p ∈ [((2 : Nat), (⟨"a", "", "", "", "", "", "", "Posted ", "", ""⟩ : Row)),
       (3, ⟨"", "", "", "", "", "", "", "", "", ""⟩),
       (4, ⟨"hello", "", "", "", "", "", "", "", "", ""⟩)], eligible p.2 = false) :=
  ⟨by decide,
   (first_unposted_correct
      [(2, ⟨"a", "", "", "", "", "", "", "Posted ", "", ""⟩),
       (3, ⟨"", "", "", "", "", "", "", "", "", ""⟩),
       (4, ⟨"hello", "", "", "", "", "", "", "", "", ""⟩)] (by decide)).2⟩

/-- C10: a row whose text is only whitespace, with empty image_url and a
status that is not "posted", is selected by first_unposted (which tests the
raw fields for truthiness), and post_one then builds a text-post payload
whose text entry is the empty string (it strips the text before use). -/
theorem whitespace_row_selected_empty_text :
    first_unposted [(2, ⟨" ", "", "", "", "", "", "", "", "", ""⟩)]
      = some (2, ⟨" ", "", "", "", "", "", "", "", "", ""⟩) ∧
    post_one_calls ⟨" ", "", "", "", "", "", "", "", "", ""⟩ "cid"
      = [ApiCall.createContainer (textPayload ⟨" ", "", "", "", "", "", "", "", "", ""⟩)] ∧
    payloadGet (textPayload ⟨" ", "", "", "", "", "", "", "", "", ""⟩) "text"
      = some (JVal.s "") := by
  decide

/-- Counterexample to C2 as stated: for the row with text "hi", empty
image_url and alt_text "ALT", the claim says the text-post payload includes
alt_text (present and non-empty), but post_one builds a text payload with no
alt_text entry. -/
theorem text_payload_drops_alt_text :
    truthy (Row.alt_text ⟨"hi", "", "ALT", "", "", "", "", "", "", ""⟩) = true ∧
    post_one_calls ⟨"hi", "", "ALT", "", "", "", "", "", "", ""⟩ "c"
      = [ApiCall.createContainer (textPayload ⟨"hi", "", "ALT", "", "", "", "", "", "", ""⟩)] ∧
    payloadGet (textPayload ⟨"hi", "", "ALT", "", "", "", "", "", "", ""⟩) "alt_text"
      = none := by
  decide

/-- C2 (amended): with the branch condition on the stripped image_url, the
image branch issues create-container with media_type IMAGE followed by
publish-container with the returned id, its payload carrying the optional
fields alt_text, reply_control, topic_tag, location_id exactly when truthy
and never link_attachment; the text branch issues a single create-container
with media_type TEXT and auto_publish_text true, its payload carrying the
optional fields link_attachment, reply_control, topic_tag, location_id
exactly when truthy, and never alt_text. -/
theorem post_one_calls_spec (row : Row) (cid : String) :
    (truthy (pystrip row.image_url) = true →
      post_one_calls row cid =
        [ApiCall.createContainer (imagePayload row), ApiCall.publishContainer cid] ∧
      payloadGet (imagePayload row) "media_type" = some (JVal.s "IMAGE") ∧
      payloadGet (imagePayload row) "image_url" = some (JVal.s (pystrip row.image_url)) ∧
      payloadGet (imagePayload row) "text" = some (JVal.s (pystrip row.text)) ∧
      payloadGet (imagePayload row) "alt_text"
        = (if truthy row.alt_text then some (JVal.s row.alt_text) else none) ∧
      payloadGet (imagePayload row) "reply_control"
        = (if truthy row.reply_control then some (JVal.s row.reply_control) else none) ∧
      payloadGet (imagePayload row) "topic_tag"
        = (if truthy row.topic_tag then some (JVal.s row.topic_tag) else none) ∧
      payloadGet (imagePayload row) "location_id"
        = (if truthy row.location_id then some (JVal.s row.location_id) else none) ∧
      payloadGet (imagePayload row) "link_attachment" = none) ∧
    (truthy (pystrip row.image_url) = false →
      post_one_calls row cid = [ApiCall.createContainer (textPayload row)] ∧
      payloadGet (textPayload row) "media_type" = some (JVal.s "TEXT") ∧
      payloadGet (textPayload row) "text" = some (JVal.s (pystrip row.text)) ∧
      payloadGet (textPayload row) "auto_publish_text" = some (JVal.b true) ∧
      payloadGet (textPayload row) "link_attachment"
        = (if truthy row.link_attachment then some (JVal.s row.link_attachment) else none) ∧
      payloadGet (textPayload row) "reply_control"
        = (if truthy row.reply_control then some (JVal.s row.reply_control) else none) ∧
      payloadGet (textPayload row) "topic_tag"
        = (if truthy row.topic_tag then some (JVal.s row.topic_tag) else none) ∧
      payloadGet (textPayload row) "location_id"
        = (if truthy row.location_id then some (JVal.s row.location_id) else none) ∧
      payloadGet (textPayload row) "alt_text" = none) := by
  constructor
  · intro h
    refine ⟨by simp [post_one_calls, h], ?_⟩
    rcases hA : truthy row.alt_text <;> rcases hR : truthy row.reply_control <;>
      rcases hT : truthy row.topic_tag <;> rcases hL : truthy row.location_id <;>
        simp [imagePayload, payloadGet, hA, hR, hT, hL, List.find?]
  · intro h
    refine ⟨by simp [post_one_calls, h], ?_⟩
    rcases hK : truthy row.link_attachment <;> rcases hR : truthy row.reply_control <;>
      rcases hT : truthy row.topic_tag <;> rcases hL : truthy row.location_id <;>
        simp [textPayload, payloadGet, hK, hR, hT, hL, List.find?]

/-- Witness for C2 (amended) at a concrete image row and a concrete text
row. -/
theorem post_one_calls_spec_witness :
    post_one_calls ⟨"cap", "http://img", "ALT", "", "", "", "", "", "", ""⟩ "c1"
      = [ApiCall.createContainer
           (imagePayload ⟨"cap", "http://img", "ALT", "", "", "", "", "", "", ""⟩),
         ApiCall.publishContainer "c1"] ∧
    post_one_calls ⟨"cap", " ", "", "link", "", "", "", "", "", ""⟩ "c2"
      = [ApiCall.createContainer
           (textPayload ⟨"cap", " ", "", "link", "", "", "", "", "", ""⟩)] :=
  ⟨((post_one_calls_spec ⟨"cap", "http://img", "ALT", "", "", "", "", "", "", ""⟩ "c1").1
      (by decide)).1,
   ((post_one_calls_spec ⟨"cap", " ", "", "link", "", "", "", "", "", ""⟩ "c2").2
      (by decide)).1⟩

/-- Slicing never yields more than n characters. -/
theorem pyslice_length (s : String) (n : Nat) : (pyslice s n).length ≤ n := by
  simp [pyslice, String.length_mk]

/-- Slicing a non-empty string to a positive length is non-empty. -/
theorem pyslice_ne_empty (s : String) (n : Nat) (hn : 0 < n) (hs : s ≠ "") :
    pyslice s n ≠ "" := by
  intro hcontra
  apply hs
  have hdata : s.data.take n = [] := congrArg String.data hcontra
  rcases List.take_eq_nil_iff.mp hdata with h | h
  · omega
  · exact String.ext h

/-- The strftime timestamp of line 100 is never empty. -/
theorem strftime_ts_ne_empty (y mo d h mi s : Nat) :
    strftime_ts y mo d h mi s ≠ "" := by
  intro hcontra
  have hlen := congrArg String.length hcontra
  rw [strftime_ts] at hlen
  simp only [String.length_append, String.length_empty] at hlen
  have : String.length "-" = 1 := rfl
  omega

/-- C3: update_result writes status "posted", the (non-empty) strftime
timestamp and an empty error cell after a success (the success path of
post_next_unposted passes status "posted" and an empty error), and writes
status "failed", an empty posted_at cell and the first 3000 characters of
the error after a failure, so the stored error is non-empty when the error
is non-empty and never exceeds 3000 characters. -/
theorem update_result_spec (y mo d h mi s : Nat) (err : String)
    (herr : err ≠ "") :
    (update_result (strftime_ts y mo d h mi s) "posted" ""
        = ⟨"posted", strftime_ts y mo d h mi s, ""⟩) ∧
    strftime_ts y mo d h mi s ≠ "" ∧
    (update_result (strftime_ts y mo d h mi s) "failed" err
        = ⟨"failed", "", pyslice err 3000⟩) ∧
    (pyslice err 3000).length ≤ 3000 ∧
    pyslice err 3000 ≠ "" := by
  refine ⟨rfl, strftime_ts_ne_empty y mo d h mi s, rfl,
    pyslice_length err 3000, pyslice_ne_empty err 3000 (by omega) herr⟩

/-- Witness for C3 at a concrete timestamp and error. -/
theorem update_result_spec_witness :
    ("boom" : String) ≠ "" ∧
    (update_result (strftime_ts 2026 10 12 9 30 0) "posted" ""
        = ⟨"posted", strftime_ts 2026 10 12 9 30 0, ""⟩) ∧
    (update_result (strftime_ts 2026 10 12 9 30 0) "failed" "boom"
        = ⟨"failed", "", pyslice "boom" 3000⟩) :=
  ⟨by decide,
   (update_result_spec 2026 10 12 9 30 0 "boom" (by decide)).1,
   (update_result_spec 2026 10 12 9 30 0 "boom" (by decide)).2.2.1⟩

/-- Slicing distributes over append when the first part fits. -/
theorem pyslice_append (s t : String) (n : Nat) (h : s.length ≤ n) :
    pyslice (s ++ t) n = s ++ pyslice t (n - s.length) := by
  apply String.ext
  have hs : s.data.length ≤ n := h
  simp [pyslice, String.data_append, List.take_append_eq_append_take,
    List.take_of_length_le hs]

/-- C7: one attempt of a remote call fails exactly when the HTTP status is
at least 400, with an error carrying the status code and response body; the
retry policy performs at most 3 attempts; when all three fail the third
error propagates unchanged; and three consecutive HTTP 500 responses leave
the row marked "failed" with a stored error containing "500". -/
theorem retry_create_container_spec (r : HttpResp) (resps : Nat → HttpResp)
    (bs : Nat → String) (y mo d h mi s : Nat) :
    ((400 ≤ r.status → attemptOnce r
        = Except.error ("HTTP " ++ toString r.status ++ ": " ++ r.text)) ∧
     (r.status < 400 → attemptOnce r = Except.ok r.text)) ∧
    retry3_attempts resps ≤ 3 ∧
    ((∀ k, k < 3 → 400 ≤ (resps k).status) →
      retry3 resps
        = Except.error ("HTTP " ++ toString (resps 2).status ++ ": " ++ (resps 2).text)) ∧
    (retry3 (fun k => ⟨500, bs k⟩) = Except.error ("HTTP 500: " ++ bs 2) ∧
     (update_result (strftime_ts y mo d h mi s) "failed" ("HTTP 500: " ++ bs 2)).status
        = "failed" ∧
     (update_result (strftime_ts y mo d h mi s) "failed" ("HTTP 500: " ++ bs 2)).posted_at
        = "" ∧
     ∃ p q, (update_result (strftime_ts y mo d h mi s) "failed" ("HTTP 500: " ++ bs 2)).error
        = p ++ "500" ++ q) := by
  refine ⟨⟨fun hge => by simp [attemptOnce, hge], fun hlt => by
      simp [attemptOnce]; omega⟩, ?_, ?_, ?_, rfl, rfl, ?_⟩
  · simp only [retry3_attempts]
    split
    · omega
    · split <;> omega
  · intro hall
    have e0 : attemptOnce (resps 0)
        = Except.error ("HTTP " ++ toString (resps 0).status ++ ": " ++ (resps 0).text) := by
      simp [attemptOnce, hall 0 (by omega)]
    have e1 : attemptOnce (resps 1)
        = Except.error ("HTTP " ++ toString (resps 1).status ++ ": " ++ (resps 1).text) := by
      simp [attemptOnce, hall 1 (by omega)]
    have e2 : attemptOnce (resps 2)
        = Except.error ("HTTP " ++ toString (resps 2).status ++ ": " ++ (resps 2).text) := by
      simp [attemptOnce, hall 2 (by omega)]
    simp [retry3, e0, e1, e2]
  · have hconcat : ("HTTP " ++ toString (500 : Nat) ++ ": ") = "HTTP 500: " := rfl
    have e : ∀ k, attemptOnce ⟨500, bs k⟩ = Except.error ("HTTP 500: " ++ bs k) := by
      intro k
      simp [attemptOnce, ← hconcat, String.append_assoc]
    simp [retry3, e]
  · refine ⟨"HTTP ", ": " ++ pyslice (bs 2) 2990, ?_⟩
    have hcell : (update_result (strftime_ts y mo d h mi s) "failed"
        ("HTTP 500: " ++ bs 2)).error = pyslice ("HTTP 500: " ++ bs 2) 3000 := rfl
    rw [hcell, pyslice_append "HTTP 500: " (bs 2) 3000 (by decide)]
    have hsplit : ("HTTP 500: " : String) = "HTTP " ++ "500" ++ ": " := rfl
    rw [hsplit, String.append_assoc, String.append_assoc]
    rfl

/-- Witness for C7: three consecutive 500 responses. -/
theorem retry_create_container_spec_witness :
    retry3 (fun _ => ⟨500, "boom"⟩) = Except.error "HTTP 500: boom" ∧
    retry3_attempts (fun _ => ⟨500, "boom"⟩) ≤ 3 := by
  have h := retry_create_container_spec ⟨200, "ok"⟩ (fun _ => ⟨500, "boom"⟩)
    (fun _ => "boom") 2026 10 12 0 0 0
  exact ⟨h.2.2.1 (fun k hk => by decide), h.2.1⟩

/-- C8: for every initial header, ensure_header returns a header containing
every required column, extends the original header only by appending (so the
original order and any extra pre-existing columns are preserved), and returns
the header unchanged when all required columns are already present. -/
theorem ensure_header_spec (header : List String) :
    (∀ c ∈ NEED_COLS, c ∈ ensure_header header) ∧
    (∃ tail, ensure_header header = header ++ tail) ∧
    ((∀ c ∈ NEED_COLS, c ∈ header) → ensure_header header = header) := by
  refine ⟨fun c hc => ?_, ?_, fun hall => ?_⟩
  · exact foldl_append_missing_covers _ _ _ hc
  · exact foldl_append_missing _ _
  · exact foldl_append_missing_id _ _ hall

/-- Witness for C8 at the concrete header ["text", "status", "extra"]. -/
theorem ensure_header_spec_witness :
    (∀ c ∈ NEED_COLS, c ∈ ensure_header ["text", "status", "extra"]) ∧
    (∃ tail, ensure_header ["text", "status", "extra"]
        = ["text", "status", "extra"] ++ tail) ∧
    ((∀ c ∈ NEED_COLS, c ∈ ["text", "status", "extra"]) →
        ensure_header ["text", "status", "extra"] = ["text", "status", "extra"]) :=
  ensure_header_spec ["text", "status", "extra"]

/-- The calendar day of an instant brackets it. -/
theorem dayOf_bounds (t : Int) : 86400 * dayOf t ≤ t ∧ t < 86400 * (dayOf t + 1) := by
  have h1 := Int.fdiv_add_fmod t 86400
  have h2 : 0 ≤ t.fmod 86400 := Int.fmod_nonneg' t (by norm_num)
  have h3 : t.fmod 86400 < 86400 := Int.fmod_lt_of_pos t (by norm_num)
  unfold dayOf
  omega

/-- Counterexample to C4 as stated: for time 12:00, jitter 0 minutes and
reference instant 43200 (12:00:00 of day 0), the randomization span is
padded to 60 seconds, the draw offs = 60 is admissible, and the computed
instant 43265 lies 65 seconds past target + J. -/
theorem next_at_with_jitter_exceeds_target :
    jitterBase 12 0 0 43200 = 43200 ∧
    jitterSecs 12 0 0 43200 = 60 ∧
    next_at_with_jitter 12 0 0 43200 60 = 43265 ∧
    ¬(next_at_with_jitter 12 0 0 43200 60 ≤ jitterBase 12 0 0 43200 + 0 * 60) := by
  decide

/-- C4 (amended): the computed instant is at least target - J minutes and at
least 5 seconds after the reference; it is at most the larger of
target + J minutes and clampedStart + 60 seconds, where clampedStart is
max(target - J, ref + 5); in particular it stays within
[target - J, target + J] whenever clampedStart + 60 does. -/
theorem next_at_with_jitter_bounds (h m j : Nat) (ref : Int) (offs : Nat)
    (hoffs : (offs : Int) ≤ jitterSecs h m j ref) :
    jitterBase h m j ref - (j : Int) * 60 ≤ next_at_with_jitter h m j ref offs ∧
    ref + 5 ≤ next_at_with_jitter h m j ref offs ∧
    next_at_with_jitter h m j ref offs
      ≤ max (jitterBase h m j ref + (j : Int) * 60) (jitterStart h m j ref + 60) ∧
    (jitterStart h m j ref + 60 ≤ jitterBase h m j ref + (j : Int) * 60 →
      next_at_with_jitter h m j ref offs ≤ jitterBase h m j ref + (j : Int) * 60) := by
  have hnext : next_at_with_jitter h m j ref offs
      = jitterStart h m j ref + (offs : Int) := rfl
  have hs1 : jitterBase h m j ref - (j : Int) * 60 ≤ jitterStart h m j ref :=
    le_max_left _ _
  have hs2 : ref + 5 ≤ jitterStart h m j ref := le_max_right _ _
  have hsecs : jitterSecs h m j ref
      = max 60 (jitterBase h m j ref + (j : Int) * 60 - jitterStart h m j ref) := rfl
  have hoNat : (0 : Int) ≤ (offs : Int) := Int.natCast_nonneg offs
  rcases max_cases (60 : Int)
      (jitterBase h m j ref + (j : Int) * 60 - jitterStart h m j ref) with hc | hc <;>
    rw [hsecs, hc.1] at hoffs
  · exact ⟨by omega, by omega,
      le_trans (by omega) (le_max_right _ _), fun hle => by omega⟩
  · exact ⟨by omega, by omega,
      le_trans (by omega) (le_max_left _ _), fun hle => by omega⟩

/-- Witness for C4 (amended) at time 12:00, jitter 30, reference 0, draw 0. -/
theorem next_at_with_jitter_bounds_witness :
    (0 : Int) + 5 ≤ next_at_with_jitter 12 0 30 0 0 :=
  (next_at_with_jitter_bounds 12 0 30 0 0 (by decide)).2.1

/-- Counterexample to C5 as stated: for the inverted window 10:00-09:00 at
instant 0, the draw 0 is admissible and the computed instant is 208800
(10:00 of day 2), which lies inside no day window [start, end], that range
being empty for an inverted window. -/
theorem next_random_in_window_inverted :
    next_random_in_window 10 0 9 0 0 0 = 208800 ∧
    (0 : Int) ≤ max 0 (windowRsec 10 0 9 0 0) ∧
    ¬ ∃ d : Int, combine d 10 0 ≤ next_random_in_window 10 0 9 0 0 0 ∧
        next_random_in_window 10 0 9 0 0 0 ≤ combine d 9 0 := by
  refine ⟨by decide, by decide, ?_⟩
  rintro ⟨d, hlo, hhi⟩
  rw [show next_random_in_window 10 0 9 0 0 0 = 208800 from by decide] at hlo hhi
  simp only [combine] at hlo hhi
  omega

/-- C5 (amended): for a well-formed window whose end is after its start, the
computed instant lies within [start, end] of some day, is at least 5 seconds
past the current instant, and falls in the next day window when the end of
the current day window has already passed. -/
theorem next_random_in_window_spec (sh sm eh em : Nat) (now : Int) (offs : Nat)
    (hsh : sh ≤ 23) (hsm : sm ≤ 59) (heh : eh ≤ 23) (hem : em ≤ 59)
    (hwin : (sh : Int) * 60 + (sm : Int) < (eh : Int) * 60 + (em : Int))
    (hoffs : (offs : Int) ≤ max 0 (windowRsec sh sm eh em now)) :
    (∃ d : Int, combine d sh sm ≤ next_random_in_window sh sm eh em now offs ∧
       next_random_in_window sh sm eh em now offs ≤ combine d eh em) ∧
    now + 5 ≤ next_random_in_window sh sm eh em now offs ∧
    (combine (dayOf now) eh em ≤ now →
       combine (dayOf now + 1) sh sm ≤ next_random_in_window sh sm eh em now offs ∧
       next_random_in_window sh sm eh em now offs ≤ combine (dayOf now + 1) eh em) := by
  have hday := dayOf_bounds now
  have hoNat : (0 : Int) ≤ (offs : Int) := Int.natCast_nonneg offs
  have hnext : next_random_in_window sh sm eh em now offs
      = (windowState sh sm eh em now).2.2 + (offs : Int) := rfl
  have hrsec : windowRsec sh sm eh em now
      = (windowState sh sm eh em now).2.1 - (windowState sh sm eh em now).2.2 := rfl
  rw [hrsec] at hoffs
  by_cases h1 : combine (dayOf now) eh em ≤ now ∨
      combine (dayOf now) eh em ≤ combine (dayOf now) sh sm
  · by_cases h2 : combine (dayOf now) eh em + 86400 -
        max (combine (dayOf now) sh sm + 86400) (now + 5) ≤ 5
    · exfalso
      rcases h1 with h1a | h1b
      · simp only [combine] at h1a h2
        omega
      · simp only [combine] at h1b
        omega
    · have hws : windowState sh sm eh em now =
          (combine (dayOf now) sh sm + 86400,
           combine (dayOf now) eh em + 86400,
           max (combine (dayOf now) sh sm + 86400) (now + 5)) := by
        simp only [windowState]
        rw [if_pos h1, if_neg h2]
      rw [hws] at hoffs hnext
      dsimp only at hoffs hnext
      rcases h1 with h1a | h1b
      · refine ⟨⟨dayOf now + 1, ?_, ?_⟩, ?_, fun hp => ⟨?_, ?_⟩⟩ <;>
          · simp only [combine] at *
            omega
      · exfalso
        simp only [combine] at h1b
        omega
  · by_cases h2 : combine (dayOf now) eh em + 0 -
        max (combine (dayOf now) sh sm + 0) (now + 5) ≤ 5
    · have hws : windowState sh sm eh em now =
          (combine (dayOf now) sh sm + 0 + 86400,
           combine (dayOf now) eh em + 0 + 86400,
           combine (dayOf now) sh sm + 0 + 86400) := by
        simp only [windowState]
        rw [if_neg h1, if_pos h2]
      rw [hws] at hoffs hnext
      dsimp only at hoffs hnext
      push_neg at h1
      refine ⟨⟨dayOf now + 1, ?_, ?_⟩, ?_, fun hp => ⟨?_, ?_⟩⟩ <;>
        · simp only [combine] at *
          omega
    · have hws : windowState sh sm eh em now =
          (combine (dayOf now) sh sm + 0,
           combine (dayOf now) eh em + 0,
           max (combine (dayOf now) sh sm + 0) (now + 5)) := by
        simp only [windowState]
        rw [if_neg h1, if_neg h2]
      rw [hws] at hoffs hnext
      dsimp only at hoffs hnext
      push_neg at h1
      refine ⟨⟨dayOf now, ?_, ?_⟩, ?_, fun hp => ⟨?_, ?_⟩⟩ <;>
        · simp only [combine] at *
          omega

/-- Witness for C5 (amended) on the window 09:00-10:00 at instant 0. -/
theorem next_random_in_window_spec_witness :
    (0 : Int) + 5 ≤ next_random_in_window 9 0 10 0 0 0 :=
  (next_random_in_window_spec 9 0 10 0 0 0 (by decide) (by decide) (by decide)
    (by decide) (by decide) (by decide)).2.1

/-- C6 (code bug, lines 199-211): with window 00:00-23:59, the iteration
whose loop top runs at 10:00:00 of day 0 fires at 36005; the next iteration
recomputes a fresh instant at the loop top (line 200), obtaining 36010,
still inside the day-0 window, while the next-day value computed after
firing at lines 210-211 (122410, a day-1 instant) is discarded.  The loop
therefore fires twice within the same day window, against the stated claim
and the inline comment of line 209. -/
theorem run_daily_window_fires_twice_same_day :
    run_daily_window_fire 0 0 23 59 36000 0 = 36005 ∧
    run_daily_window_fire 0 0 23 59 36005 0 = 36010 ∧
    combine 0 0 0 ≤ 36005 ∧ (36005 : Int) ≤ combine 0 23 59 ∧
    combine 0 0 0 ≤ 36010 ∧ (36010 : Int) ≤ combine 0 23 59 ∧
    run_daily_window_dead_next 0 0 23 59 36005 0 = 122410 ∧
    combine 1 0 0 ≤ run_daily_window_dead_next 0 0 23 59 36005 0 := by
  decide

/-- selectMin returns an element of the list. -/
theorem selectMin_mem (m : List (String × Int)) (kv : String × Int)
    (h : selectMin m = some kv) : kv ∈ m := by
  induction m generalizing kv with
  | nil => cases h
  | cons a rest ih =>
    cases hrest : selectMin rest with
    | none =>
      simp only [selectMin, hrest, Option.some.injEq] at h
      rw [← h]
      exact List.mem_cons_self _ _
    | some best =>
      simp only [selectMin, hrest] at h
      by_cases hlt : best.2 < a.2
      · rw [if_pos hlt, Option.some.injEq] at h
        rw [← h]
        exact List.mem_cons_of_mem _ (ih best hrest)
      · rw [if_neg hlt, Option.some.injEq] at h
        rw [← h]
        exact List.mem_cons_self _ _

/-- selectMin returns a minimal instant. -/
theorem selectMin_le (m : List (String × Int)) (kv : String × Int)
    (h : selectMin m = some kv) : ∀ p ∈ m, kv.2 ≤ p.2 := by
  induction m generalizing kv with
  | nil => cases h
  | cons a rest ih =>
    intro p hp
    cases hrest : selectMin rest with
    | none =>
      have hnil : rest = [] := by
        cases rest with
        | nil => rfl
        | cons b bs =>
          exfalso
          simp only [selectMin] at hrest
          split at hrest
          · cases hrest
          · split at hrest <;> cases hrest
      subst hnil
      simp only [selectMin, Option.some.injEq] at h
      rcases List.mem_cons.mp hp with rfl | hmem
      · rw [← h]
      · cases hmem
    | some best =>
      simp only [selectMin, hrest] at h
      by_cases hlt : best.2 < a.2
      · rw [if_pos hlt, Option.some.injEq] at h
        rcases List.mem_cons.mp hp with rfl | hmem
        · rw [← h]; exact le_of_lt hlt
        · rw [← h]; exact ih best hrest p hmem
      · rw [if_neg hlt, Option.some.injEq] at h
        rcases List.mem_cons.mp hp with rfl | hmem
        · rw [← h]
        · rw [← h]
          exact le_trans (not_lt.mp hlt) (ih best hrest p hmem)

/-- Updating one label leaves every other key unchanged. -/
theorem mapGet_updateSchedule_ne (m : List (String × Int)) (label k : String)
    (v : Int) (hk : k ≠ label) :
    mapGet (updateSchedule m label v) k = mapGet m k := by
  induction m with
  | nil => rfl
  | cons a rest ih =>
    by_cases ha : a.1 = label
    · have hb1 : (a.1 == label) = true := beq_iff_eq.mpr ha
      have hb2 : (a.1 == k) = false := by
        rw [beq_eq_false_iff_ne]
        intro hc
        exact hk (by rw [← hc, ha])
      simp only [updateSchedule, List.map_cons, hb1, if_true, mapGet,
        List.find?, hb2]
      exact ih
    · have hb1 : (a.1 == label) = false := beq_eq_false_iff_ne.mpr ha
      by_cases hak : a.1 = k
      · have hb2 : (a.1 == k) = true := beq_iff_eq.mpr hak
        simp only [updateSchedule, List.map_cons, hb1, Bool.false_eq_true,
          if_false, mapGet, List.find?, hb2]
      · have hb2 : (a.1 == k) = false := beq_eq_false_iff_ne.mpr hak
        simp only [updateSchedule, List.map_cons, hb1, Bool.false_eq_true,
          if_false, mapGet, List.find?, hb2]
        exact ih

/-- Updating a present label stores the new value under that key. -/
theorem mapGet_updateSchedule_self (m : List (String × Int)) (label : String)
    (v w : Int) (hmem : (label, w) ∈ m) :
    mapGet (updateSchedule m label v) label = some v := by
  induction m with
  | nil => cases hmem
  | cons a rest ih =>
    by_cases ha : a.1 = label
    · have hb1 : (a.1 == label) = true := beq_iff_eq.mpr ha
      simp only [updateSchedule, List.map_cons, hb1, if_true, mapGet,
        List.find?]
    · have hb1 : (a.1 == label) = false := beq_eq_false_iff_ne.mpr ha
      have hmem2 : (label, w) ∈ rest := by
        rcases List.mem_cons.mp hmem with heq | hmem2
        · exact absurd (congrArg Prod.fst heq.symm) ha
        · exact hmem2
      simp only [updateSchedule, List.map_cons, hb1, Bool.false_eq_true,
        if_false, mapGet, List.find?]
      exact ih hmem2

/-- C9: one iteration of run_daily_multi_at selects an entry whose pending
instant is minimal over the schedule map, and after firing recomputes only
that label (with the reference one day past the fired instant, yielding an
instant at least a day later); every other label keeps its pending
instant. -/
theorem run_daily_multi_at_step_spec (parseHM : String → Nat × Nat)
    (j offs : Nat) (m : List (String × Int)) (label : String) (v : Int)
    (hsel : selectMin m = some (label, v)) :
    (label, v) ∈ m ∧
    (∀ p ∈ m, v ≤ p.2) ∧
    (∀ k, k ≠ label →
        mapGet (run_daily_multi_at_step parseHM j offs m) k = mapGet m k) ∧
    mapGet (run_daily_multi_at_step parseHM j offs m) label
      = some (next_at_with_jitter (parseHM label).1 (parseHM label).2 j
          (v + 86400) offs) ∧
    v + 86400 + 5 ≤ next_at_with_jitter (parseHM label).1 (parseHM label).2 j
        (v + 86400) offs := by
  have hmem := selectMin_mem m (label, v) hsel
  have hle := selectMin_le m (label, v) hsel
  have hstep : run_daily_multi_at_step parseHM j offs m
      = updateSchedule m label (next_at_with_jitter (parseHM label).1
          (parseHM label).2 j (v + 86400) offs) := by
    simp only [run_daily_multi_at_step, hsel]
  refine ⟨hmem, fun p hp => hle p hp, ?_, ?_, ?_⟩
  · intro k hk
    rw [hstep]
    exact mapGet_updateSchedule_ne m label k _ hk
  · rw [hstep]
    exact mapGet_updateSchedule_self m label _ v hmem
  · have h1 : v + 86400 + 5 ≤ jitterStart (parseHM label).1 (parseHM label).2 j
        (v + 86400) := le_max_right _ _
    have h2 : (0 : Int) ≤ (offs : Int) := Int.natCast_nonneg offs
    have h3 : next_at_with_jitter (parseHM label).1 (parseHM label).2 j
        (v + 86400) offs = jitterStart (parseHM label).1 (parseHM label).2 j
        (v + 86400) + (offs : Int) := rfl
    omega

/-- Witness for C9 on the concrete schedule map with labels 09:00 and
12:00. -/
theorem run_daily_multi_at_step_spec_witness :
    (("12:00", (50 : Int)) ∈ [("09:00", (100 : Int)), ("12:00", 50)]) ∧
    mapGet (run_daily_multi_at_step (fun _ => (12, 0)) 0 0
        [("09:00", (100 : Int)), ("12:00", 50)]) "09:00" = some 100 := by
  have h := run_daily_multi_at_step_spec (fun _ => (12, 0)) 0 0
    [("09:00", (100 : Int)), ("12:00", 50)] "12:00" 50 (by decide)
  refine ⟨h.1, ?_⟩
  rw [h.2.2.1 "09:00" (by decide)]
  decide

end ThreadsAutoPost
